import Mathlib

/-!
Shallow embedding of `src/scripts.ts` (the `CountryTable` class): a paginated,
searchable, sortable table controller.  DOM lookups and event wiring are
external glue; the embedded part is the controller state, the pure state
transitions performed by each event handler, the query-URL construction and
the view update performed by `fetchData`.  Network calls are modelled by
passing their outcome as an `Option` argument (`none` = the fetch or parse
threw, `some x` = it delivered `x`).
-/

namespace MD009

/-- The `Country` interface of `scripts.ts`. -/
structure Currency where
  code : String
  name : String
  symbol : String
  deriving Repr, DecidableEq

structure Language where
  code : String
  name : String
  deriving Repr, DecidableEq

structure Country where
  name : String
  code : String
  capital : String
  region : String
  currency : Currency
  language : Language
  flag : String
  dialling_code : String
  isoCode : String
  deriving Repr, DecidableEq

/-- The TypeScript type `5 | 10 | 20` of the `limit` field. -/
inductive Limit where
  | l5 | l10 | l20
  deriving Repr, DecidableEq

def Limit.toNat : Limit → Nat
  | .l5 => 5
  | .l10 => 10
  | .l20 => 20

/-- The TypeScript type `'asc' | 'desc'` of the `sortDirection` field. -/
inductive SortDirection where
  | asc | desc
  deriving Repr, DecidableEq

def SortDirection.toString : SortDirection → String
  | .asc => "asc"
  | .desc => "desc"

/-- The mutable fields of the `CountryTable` class (the DOM element references
are presentation glue and are not part of the controller state). -/
structure CountryTable where
  apiUrl : String
  currentPage : Nat := 1
  limit : Limit := .l5
  searchParams : List (String × String) := []
  sortColumn : Option String := none
  sortDirection : SortDirection := .asc
  deriving Repr, DecidableEq

/-- The state established by the constructor `new CountryTable(apiUrl)`. -/
def CountryTable.init (apiUrl : String) : CountryTable :=
  { apiUrl := apiUrl }

/-- Embedding of `getNumberOfEntries`: fetches `apiUrl?_limit=1` and reads the
`X-Total-Count` header; any error is caught (and logged) and `0` is
returned.  `countResult` is the outcome of the fetch: `some n` means the
response arrived and its header parsed to `n`, `none` means the fetch
threw. -/
def getNumberOfEntries (countResult : Option Nat) : Nat :=
  match countResult with
  | some n => n
  | none => 0

/-- Embedding of `handleSelectChange`: set the entry limit from the select element,
reset to page 1 and refetch.  The second component records that
`fetchData` was invoked. -/
def handleSelectChange (selectedValue : Limit) (s : CountryTable) :
    CountryTable × Bool :=
  ({ s with limit := selectedValue, currentPage := 1 }, true)

/-- The search-parameter object assigned by `handleInput` for input box
`index` holding (trimmed) `inputValue`; the `default` branch of the
`switch` leaves `searchParams` unchanged. -/
def searchParamsFor (index : Nat) (inputValue : String)
    (prev : List (String × String)) : List (String × String) :=
  match index with
  | 1 => [("name_like", inputValue)]
  | 2 => [("capital_like", inputValue)]
  | 3 => [("currency.name_like", inputValue)]
  | 4 => [("language.name_like", inputValue)]
  | _ => prev

/-- Embedding of the platform `String.prototype.trim`: drop leading and
trailing whitespace. -/
def jsTrim (value : String) : String :=
  String.mk
    (((value.data.dropWhile Char.isWhitespace).reverse.dropWhile
        Char.isWhitespace).reverse)

/-- Embedding of `handleInput`: read the input box's value, trim it; if the trimmed
value has length ≥ 2 install the single corresponding search parameter,
otherwise clear the search parameters; reset to page 1 and refetch. -/
def handleInput (index : Nat) (value : String) (s : CountryTable) :
    CountryTable × Bool :=
  let inputValue := jsTrim value
  let s :=
    if inputValue.length ≥ 2 then
      { s with searchParams := searchParamsFor index inputValue s.searchParams }
    else
      { s with searchParams := [] }
  ({ s with currentPage := 1 }, true)

/-- Embedding of `handlePrevButtonClick`: decrement the page and refetch, unless already
on page ≤ 1, in which case nothing at all happens (no fetch). -/
def handlePrevButtonClick (s : CountryTable) : CountryTable × Bool :=
  if s.currentPage > 1 then
    ({ s with currentPage := s.currentPage - 1 }, true)
  else
    (s, false)

/-- Embedding of `Math.ceil(a / b)` on the non-negative integers involved. -/
def ceilDiv (a b : Nat) : Nat := (a + b - 1) / b

/-- Embedding of `handleNextButtonClick`: fetch the total entry count, compute
`totalPages = Math.ceil(totalEntries / limit)` and advance (and refetch)
only when `currentPage < totalPages`. -/
def handleNextButtonClick (countResult : Option Nat) (s : CountryTable) :
    CountryTable × Bool :=
  let totalEntries := getNumberOfEntries countResult
  let totalPages := ceilDiv totalEntries s.limit.toNat
  if s.currentPage < totalPages then
    ({ s with currentPage := s.currentPage + 1 }, true)
  else
    (s, false)

/-- Embedding of `handleSortClick`: toggle the direction when the clicked column is the
current sort column, otherwise start ascending; record the clicked column;
refetch.  (Icon updates are DOM glue.) -/
def handleSortClick (column : String) (s : CountryTable) :
    CountryTable × Bool :=
  let sortDirection :=
    if some column = s.sortColumn then
      (if s.sortDirection = .asc then SortDirection.desc else .asc)
    else .asc
  ({ s with sortDirection := sortDirection, sortColumn := some column }, true)

/-- Uppercase hexadecimal digit. -/
def hexDigit (n : Nat) : Char :=
  if n < 10 then Char.ofNat (48 + n) else Char.ofNat (55 + n)

/-- The `%XX` percent-escape of one byte, uppercase hex as produced by
`URLSearchParams`. -/
def percentByte (b : Nat) : String :=
  String.mk ['%', hexDigit (b / 16), hexDigit (b % 16)]

/-- The `application/x-www-form-urlencoded` serialisation of one character
(WHATWG): alphanumerics and `*`, `-`, `.`, `_` are kept, a space becomes
`+`, every other character is percent-escaped one UTF-8 byte at a time. -/
def formEncodeChar (c : Char) : String :=
  if c.isAlphanum ∨ c = '*' ∨ c = '-' ∨ c = '.' ∨ c = '_' then
    String.singleton c
  else if c = ' ' then "+"
  else
    String.join (((String.singleton c).toUTF8.toList).map
      (fun b => percentByte b.toNat))

def formEncode (str : String) : String :=
  String.join (str.data.map formEncodeChar)

/-- Embedding of `new URLSearchParams(params).toString()`: the `k=v` pairs, each side
form-encoded, joined with `&`. -/
def urlSearchParamsToString (params : List (String × String)) : String :=
  String.intercalate "&"
    (params.map (fun p => formEncode p.1 ++ "=" ++ formEncode p.2))

/-- Embedding of `buildApiUrl`: append the search parameters (when any are set) and the
sort parameters (when a sort column is set — `sortDirection`, being the
string `'asc'` or `'desc'`, is always truthy) to the base URL. -/
def buildApiUrl (s : CountryTable) (baseApiUrl : String) : String :=
  let withSearch :=
    if s.searchParams.length > 0 then
      baseApiUrl ++ "&" ++ urlSearchParamsToString s.searchParams
    else baseApiUrl
  match s.sortColumn with
  | some column =>
      withSearch ++ "&_sort=" ++ column ++ "&_order=" ++ s.sortDirection.toString
  | none => withSearch

/-- The offset computed at the top of `fetchData`:
`(currentPage - 1) * limit`. -/
def offsetOf (s : CountryTable) : Nat :=
  (s.currentPage - 1) * s.limit.toNat

/-- The full URL requested by `fetchData`:
`apiUrl?_limit=<limit>&_start=<offset>` fed through `buildApiUrl`. -/
def fetchDataUrl (s : CountryTable) : String :=
  buildApiUrl s
    (s.apiUrl ++ "?_limit=" ++ toString s.limit.toNat ++
      "&_start=" ++ toString (offsetOf s))

/-- The rendered view: the table body rows (identified by the country
records they render, one row per country in order) and the text of the
`#entriesAmount` span. -/
structure View where
  rows : List Country
  summary : String
  deriving Repr, DecidableEq

/-- The entries summary written by `fetchData`:
`Showing ${offset + 1} to ${offset + limit} of ${totalEntries} Entries`. -/
def entriesSummary (offset limit totalEntries : Nat) : String :=
  "Showing " ++ toString (offset + 1) ++ " to " ++ toString (offset + limit) ++
    " of " ++ toString totalEntries ++ " Entries"

/-- Embedding of `fetchData`: request the current page; on success render the returned
rows, then fetch the total count (whose own failures `getNumberOfEntries`
turns into `0`) and rewrite the summary span; any failure of the page
fetch or of parsing its body is caught (and logged) leaving the view as it
was.  `pageResult` is the outcome of `fetch` + `response.json()`
(`none` = either threw); `countResult` as in `getNumberOfEntries`;
`view` is the view rendered before the call. -/
def fetchData (s : CountryTable) (pageResult : Option (List Country))
    (countResult : Option Nat) (view : View) : View :=
  match pageResult with
  | none => view
  | some data =>
      { rows := data,
        summary :=
          entriesSummary (offsetOf s) s.limit.toNat
            (getNumberOfEntries countResult) }

/-! ## Spec-side description of the refresh query

The spec describes `refresh()` as building a query from
`{offset, pageSize, filterField/filterText if present,
sortField/sortDirection if present}`.  `SpecQuery` and its rendering are
written from those words, to be compared with `fetchDataUrl` above. -/

/-- Written from the spec: the abstract query of one refresh. -/
structure SpecQuery where
  limit : Nat
  start : Nat
  filter : Option (String × String)
  sort : Option (String × SortDirection)
  deriving Repr, DecidableEq

/-- Written from the spec: the query determined by the current state —
`offset = (page - 1) * pageSize`, `limit = pageSize`, the filter pair when
a filter is active, the sort pair when a sort has been set. -/
def specQuery (s : CountryTable) : SpecQuery :=
  { limit := s.limit.toNat,
    start := (s.currentPage - 1) * s.limit.toNat,
    filter := s.searchParams.head?,
    sort := s.sortColumn.map (fun c => (c, s.sortDirection)) }

/-- Written from the spec: the request URL carrying exactly the abstract
query (filter keys and values in form encoding). -/
def SpecQuery.render (apiUrl : String) (q : SpecQuery) : String :=
  apiUrl ++ "?_limit=" ++ toString q.limit ++ "&_start=" ++ toString q.start ++
    (match q.filter with
     | some kv => "&" ++ formEncode kv.1 ++ "=" ++ formEncode kv.2
     | none => "") ++
    (match q.sort with
     | some cd => "&_sort=" ++ cd.1 ++ "&_order=" ++ cd.2.toString
     | none => "")

/-- The search-parameter key the spec associates with input box `index`. -/
def filterKey : Nat → String
  | 1 => "name_like"
  | 2 => "capital_like"
  | 3 => "currency.name_like"
  | 4 => "language.name_like"
  | _ => ""

/-- The states the controller can be in: the constructor's state, closed
under the five event handlers (with arbitrary inputs and network
outcomes).  `fetchData` never assigns to any field, so it does not
appear. -/
inductive Reachable : CountryTable → Prop where
  | init (apiUrl : String) : Reachable (CountryTable.init apiUrl)
  | selectChange {s : CountryTable} (v : Limit) :
      Reachable s → Reachable (handleSelectChange v s).1
  | input {s : CountryTable} (i : Nat) (t : String) :
      Reachable s → Reachable (handleInput i t s).1
  | prev {s : CountryTable} :
      Reachable s → Reachable (handlePrevButtonClick s).1
  | next {s : CountryTable} (c : Option Nat) :
      Reachable s → Reachable (handleNextButtonClick c s).1
  | sort {s : CountryTable} (c : String) :
      Reachable s → Reachable (handleSortClick c s).1

/-! ## Helper lemmas -/

lemma Limit.toNat_pos (l : Limit) : 0 < l.toNat := by
  cases l <;> decide

/-- The embedded ceiling division is a genuine ceiling: for positive `b`,
`ceilDiv a b` is the least `c` with `a ≤ c * b`. -/
lemma ceilDiv_le_iff {b : Nat} (hb : 0 < b) (a c : Nat) :
    ceilDiv a b ≤ c ↔ a ≤ c * b := by
  unfold ceilDiv
  rw [Nat.div_le_iff_le_mul_add_pred hb, Nat.mul_comm b c]
  omega

/-- Unfolding equation for `handleNextButtonClick`. -/
lemma handleNextButtonClick_eq (countResult : Option Nat) (s : CountryTable) :
    handleNextButtonClick countResult s =
      if s.currentPage < ceilDiv (getNumberOfEntries countResult) s.limit.toNat
      then ({ s with currentPage := s.currentPage + 1 }, true)
      else (s, false) := rfl

lemma searchParamsFor_of_bounds {i : Nat} (h1 : 1 ≤ i) (h4 : i ≤ 4)
    (t : String) (prev : List (String × String)) :
    searchParamsFor i t prev = [(filterKey i, t)] := by
  interval_cases i <;> rfl

lemma searchParamsFor_length {i : Nat} (t : String)
    {prev : List (String × String)} (h : prev.length ≤ 1) :
    (searchParamsFor i t prev).length ≤ 1 := by
  unfold searchParamsFor
  split <;> simp_all

/-- Every reachable state has `currentPage ≥ 1` and at most one search
parameter installed. -/
lemma reachable_invariant {s : CountryTable} (h : Reachable s) :
    1 ≤ s.currentPage ∧ s.searchParams.length ≤ 1 := by
  induction h with
  | init apiUrl => exact ⟨le_refl 1, by simp [CountryTable.init]⟩
  | selectChange v _ ih => exact ⟨le_refl 1, ih.2⟩
  | @input s i t _ ih =>
      refine ⟨le_refl 1, ?_⟩
      simp only [handleInput]
      split
      · exact searchParamsFor_length (jsTrim t) ih.2
      · simp
  | @prev s _ ih =>
      unfold handlePrevButtonClick
      rcases Nat.lt_or_ge 1 s.currentPage with hp | hp
      · rw [if_pos hp]
        exact ⟨Nat.le_sub_one_of_lt hp, ih.2⟩
      · rw [if_neg (by omega)]
        exact ih
  | @next s c _ ih =>
      rw [handleNextButtonClick_eq]
      rcases Nat.lt_or_ge s.currentPage
          (ceilDiv (getNumberOfEntries c) s.limit.toNat) with hp | hp
      · rw [if_pos hp]
        exact ⟨Nat.le_succ_of_le ih.1, ih.2⟩
      · rw [if_neg (by omega)]
        exact ih
  | sort c _ ih => exact ih

lemma handleSortClick_same {column : String} {s : CountryTable}
    (h : s.sortColumn = some column) :
    handleSortClick column s =
      ({ s with
          sortDirection := if s.sortDirection = .asc then .desc else .asc,
          sortColumn := some column }, true) := by
  unfold handleSortClick
  rw [if_pos h.symm]

lemma handleSortClick_other {column : String} {s : CountryTable}
    (h : s.sortColumn ≠ some column) :
    handleSortClick column s =
      ({ s with sortDirection := .asc, sortColumn := some column }, true) := by
  unfold handleSortClick
  rw [if_neg (fun hh => h hh.symm)]

lemma intercalate_singleton (sep x : String) :
    String.intercalate sep [x] = x := rfl

/-! ## The claims -/

/-- C1: `handleNextButtonClick` computes `totalPages` as
`ceil(totalCount / pageSize)` (the first conjunct checks that the embedded
`ceilDiv` is the genuine ceiling: the least `c` with
`totalCount ≤ c * pageSize`); it is a no-op when the current page is at or
beyond `totalPages`, otherwise it increments the page by exactly one and
refetches; hence the page never advances past
`ceil(totalCount / pageSize)`. -/
theorem handleNextButtonClick_spec (countResult : Option Nat)
    (s : CountryTable) :
    (∀ c : Nat,
      ceilDiv (getNumberOfEntries countResult) s.limit.toNat ≤ c ↔
        getNumberOfEntries countResult ≤ c * s.limit.toNat) ∧
    (ceilDiv (getNumberOfEntries countResult) s.limit.toNat ≤ s.currentPage →
      handleNextButtonClick countResult s = (s, false)) ∧
    (s.currentPage < ceilDiv (getNumberOfEntries countResult) s.limit.toNat →
      handleNextButtonClick countResult s =
        ({ s with currentPage := s.currentPage + 1 }, true)) ∧
    (handleNextButtonClick countResult s).1.currentPage ≤
      max s.currentPage
        (ceilDiv (getNumberOfEntries countResult) s.limit.toNat) := by
  refine ⟨fun c => ceilDiv_le_iff s.limit.toNat_pos _ c, ?_, ?_, ?_⟩
  · intro h
    rw [handleNextButtonClick_eq, if_neg (by omega)]
  · intro h
    rw [handleNextButtonClick_eq, if_pos h]
  · rw [handleNextButtonClick_eq]
    rcases Nat.lt_or_ge s.currentPage
        (ceilDiv (getNumberOfEntries countResult) s.limit.toNat) with hp | hp
    · rw [if_pos hp]
      exact le_trans hp (Nat.le_max_right _ _)
    · rw [if_neg (by omega)]
      exact Nat.le_max_left _ _

/-- C1 witness: with `pageSize = 5` and `totalCount = 12`, successive
next-clicks from page 1 reach pages 2 and 3, and a further click does not
advance. -/
theorem handleNextButtonClick_spec_witness :
    handleNextButtonClick (some 12) { apiUrl := "u" } =
      ({ apiUrl := "u", currentPage := 2 }, true) ∧
    handleNextButtonClick (some 12) { apiUrl := "u", currentPage := 2 } =
      ({ apiUrl := "u", currentPage := 3 }, true) ∧
    handleNextButtonClick (some 12) { apiUrl := "u", currentPage := 3 } =
      ({ apiUrl := "u", currentPage := 3 }, false) :=
  ⟨(handleNextButtonClick_spec (some 12) _).2.2.1 (by decide),
   (handleNextButtonClick_spec (some 12) _).2.2.1 (by decide),
   (handleNextButtonClick_spec (some 12) _).2.1 (by decide)⟩

/-- C6: `handleSelectChange` installs the selected limit, resets the page
to 1 and refetches; the offset of the next query, and the `start` of the
abstract query it carries, are 0. -/
theorem handleSelectChange_spec (selectedValue : Limit) (s : CountryTable) :
    handleSelectChange selectedValue s =
      ({ s with limit := selectedValue, currentPage := 1 }, true) ∧
    offsetOf (handleSelectChange selectedValue s).1 = 0 ∧
    (specQuery (handleSelectChange selectedValue s).1).start = 0 := by
  refine ⟨rfl, ?_, ?_⟩ <;> simp [handleSelectChange, offsetOf, specQuery]

/-- C7: `handlePrevButtonClick` on page ≤ 1 changes nothing and calls no
fetch; on page > 1 it decrements the page by exactly one, leaves every
other field unchanged, and refetches. -/
theorem handlePrevButtonClick_spec (s : CountryTable) :
    (s.currentPage ≤ 1 → handlePrevButtonClick s = (s, false)) ∧
    (1 < s.currentPage →
      handlePrevButtonClick s =
        ({ s with currentPage := s.currentPage - 1 }, true)) := by
  constructor
  · intro h
    unfold handlePrevButtonClick
    rw [if_neg (by omega)]
  · intro h
    unfold handlePrevButtonClick
    rw [if_pos h]

/-- C7 witness: concrete no-op at page 1 and decrement at page 3. -/
theorem handlePrevButtonClick_spec_witness :
    handlePrevButtonClick { apiUrl := "u" } = ({ apiUrl := "u" }, false) ∧
    handlePrevButtonClick { apiUrl := "u", currentPage := 3 } =
      ({ apiUrl := "u", currentPage := 2 }, true) :=
  ⟨(handlePrevButtonClick_spec _).1 (by decide),
   (handlePrevButtonClick_spec _).2 (by decide)⟩

/-- C9: a failed total-count fetch makes `getNumberOfEntries` return 0,
so a next-click whose count fetch fails computes `totalPages = 0` and
never advances the page. -/
theorem handleNextButtonClick_count_failure (s : CountryTable) :
    getNumberOfEntries none = 0 ∧
    ceilDiv (getNumberOfEntries none) s.limit.toNat = 0 ∧
    handleNextButtonClick none s = (s, false) := by
  have h0 : ceilDiv (getNumberOfEntries none) s.limit.toNat = 0 := by
    show ceilDiv 0 s.limit.toNat = 0
    unfold ceilDiv
    exact Nat.div_eq_of_lt (by have := s.limit.toNat_pos; omega)
  refine ⟨rfl, h0, ?_⟩
  rw [handleNextButtonClick_eq, h0, if_neg (Nat.not_lt_zero _)]

/-- C10: after every successful page fetch the summary is exactly
`Showing (offset+1) to (offset+pageSize) of totalCount Entries`, the upper
bound being `offset + pageSize` whatever the fetched page contains; on a
final partial page the displayed upper bound exceeds `totalCount`
(offset 10, limit 5, total 12 shows `to 15 of 12`). -/
theorem fetchData_summary_spec (s : CountryTable) (data : List Country)
    (countResult : Option Nat) (view : View) :
    (fetchData s (some data) countResult view).summary =
      "Showing " ++ toString (offsetOf s + 1) ++ " to " ++
        toString (offsetOf s + s.limit.toNat) ++ " of " ++
        toString (getNumberOfEntries countResult) ++ " Entries" ∧
    (fetchData { apiUrl := "u", currentPage := 3 } (some data) (some 12)
        view).summary = "Showing 11 to 15 of 12 Entries" ∧
    getNumberOfEntries (some 12) <
      offsetOf { apiUrl := "u", currentPage := 3 } +
        ({ apiUrl := "u", currentPage := 3 } : CountryTable).limit.toNat :=
  ⟨rfl, rfl, by decide⟩

/-- C2 counterexample: a refresh whose total-count fetch fails (a network
failure during refresh) does not leave the previously rendered view
intact — the page fetch succeeded, so the rows re-render and the summary
is rewritten reporting 0 entries. -/
theorem fetchData_count_failure_changes_view :
    fetchData (CountryTable.init "u") (some []) none
        { rows := [], summary := "Showing 1 to 5 of 12 Entries" } ≠
      { rows := [], summary := "Showing 1 to 5 of 12 Entries" } := by
  decide

/-- C2 (amended): a failure of the page fetch or of parsing its body is
caught and logged and leaves the previously rendered view (rows and
summary) fully intact, with no retry and no user-facing surface beyond the
log, and the controller state is never touched by a refresh; a failure of
the count fetch alone, however, is caught inside `getNumberOfEntries` and
the refresh still replaces the rows and rewrites the summary with a total
of 0. -/
theorem fetchData_failure_spec (s : CountryTable) (countResult : Option Nat)
    (view : View) :
    fetchData s none countResult view = view ∧
    (∀ data : List Country,
      fetchData s (some data) none view =
        { rows := data,
          summary := entriesSummary (offsetOf s) s.limit.toNat 0 }) :=
  ⟨rfl, fun _ => rfl⟩

/-- C3: `handleInput` with trimmed text of length ≥ 2 replaces the search
parameters with exactly the single pair for the selected field; with
trimmed length < 2 it clears all filtering whatever the prior state; in
both cases the page resets to 1 and a refetch is triggered. -/
theorem handleInput_spec (index : Nat) (value : String) (s : CountryTable)
    (h1 : 1 ≤ index) (h4 : index ≤ 4) :
    (2 ≤ (jsTrim value).length →
      handleInput index value s =
        ({ s with currentPage := 1,
                  searchParams := [(filterKey index, jsTrim value)] }, true)) ∧
    ((jsTrim value).length < 2 →
      handleInput index value s =
        ({ s with currentPage := 1, searchParams := [] }, true)) := by
  constructor
  · intro h
    simp only [handleInput, ge_iff_le]
    rw [if_pos h, searchParamsFor_of_bounds h1 h4]
  · intro h
    simp only [handleInput, ge_iff_le]
    rw [if_neg (by omega)]

/-- C3 witness: typing ` fr ` in box 1 replaces a previous capital filter
with the name filter for the trimmed text `fr`; typing `f` in box 3
clears the filter. -/
theorem handleInput_spec_witness :
    handleInput 1 " fr "
        { apiUrl := "u", searchParams := [("capital_like", "ab")] } =
      ({ apiUrl := "u", currentPage := 1,
         searchParams := [("name_like", "fr")] }, true) ∧
    handleInput 3 "f" { apiUrl := "u", searchParams := [("name_like", "fr")] } =
      ({ apiUrl := "u", currentPage := 1, searchParams := [] }, true) := by
  constructor
  · exact (handleInput_spec 1 " fr "
      { apiUrl := "u", searchParams := [("capital_like", "ab")] }
      (by decide) (by decide)).1 (by decide)
  · exact (handleInput_spec 3 "f"
      { apiUrl := "u", searchParams := [("name_like", "fr")] }
      (by decide) (by decide)).2 (by decide)

/-- C4 counterexample: four successive sort clicks on the same column from
the initial state: after the first two the direction is descending, and
the next two clicks — twice on the field that is the current sort field —
leave it descending, not ascending. -/
theorem handleSortClick_twice_not_ascending :
    (handleSortClick "name" (handleSortClick "name" (handleSortClick "name"
          (handleSortClick "name"
            (CountryTable.init "u")).1).1).1).1.sortDirection ≠
      SortDirection.asc := by
  decide

/-- C4 (amended): clicking the current sort field toggles the direction,
so clicking it twice restores the whole state (direction back to its
original value — to ascending exactly when it was ascending); clicking a
different field sets that field with direction ascending; the page is
never changed. -/
theorem handleSortClick_spec (column : String) (s : CountryTable) :
    (s.sortColumn = some column →
      handleSortClick column s =
        ({ s with
            sortDirection :=
              if s.sortDirection = .asc then .desc else .asc,
            sortColumn := some column }, true) ∧
      (handleSortClick column (handleSortClick column s).1).1 = s) ∧
    (s.sortColumn ≠ some column →
      handleSortClick column s =
        ({ s with sortDirection := .asc, sortColumn := some column }, true)) ∧
    (handleSortClick column s).1.sortColumn = some column ∧
    (handleSortClick column s).1.currentPage = s.currentPage := by
  obtain ⟨a, pg, l, sp, sc, sd⟩ := s
  refine ⟨?_, fun h => handleSortClick_other h, rfl, rfl⟩
  intro h
  replace h : sc = some column := h
  subst h
  refine ⟨handleSortClick_same rfl, ?_⟩
  rw [@handleSortClick_same column
    ⟨a, pg, l, sp, some column, sd⟩ rfl]
  dsimp only
  rw [handleSortClick_same rfl]
  cases sd <;> rfl

/-- C4 witness: clicking `name` when `name` is already sorted ascending
flips to descending, and a second click restores the state; clicking
`name` from the initial (unsorted) state starts ascending. -/
theorem handleSortClick_spec_witness :
    handleSortClick "name"
        { apiUrl := "u", sortColumn := some "name",
          sortDirection := .asc } =
      ({ apiUrl := "u", sortColumn := some "name",
         sortDirection := .desc }, true) ∧
    (handleSortClick "name" (handleSortClick "name"
        { apiUrl := "u", sortColumn := some "name",
          sortDirection := .asc }).1).1 =
      { apiUrl := "u", sortColumn := some "name", sortDirection := .asc } ∧
    handleSortClick "name" (CountryTable.init "u") =
      ({ apiUrl := "u", sortColumn := some "name",
         sortDirection := .asc }, true) := by
  refine ⟨?_, ?_, ?_⟩
  · exact ((handleSortClick_spec "name"
      { apiUrl := "u", sortColumn := some "name",
        sortDirection := .asc }).1 (by decide)).1
  · exact ((handleSortClick_spec "name"
      { apiUrl := "u", sortColumn := some "name",
        sortDirection := .asc }).1 (by decide)).2
  · exact (handleSortClick_spec "name" (CountryTable.init "u")).2.1
      (by decide)

/-- C5: every refresh computes `offset = (page - 1) * pageSize` and
requests exactly the query determined by the current state — limit,
start, the filter pair when one is active, the sort pair when a sort has
been set (`specQuery` and `SpecQuery.render` are written from the spec's
description of `refresh()`). -/
theorem fetchData_query_spec (s : CountryTable) (h : Reachable s) :
    offsetOf s = (s.currentPage - 1) * s.limit.toNat ∧
    fetchDataUrl s = SpecQuery.render s.apiUrl (specQuery s) := by
  refine ⟨rfl, ?_⟩
  have hsp := (reachable_invariant h).2
  obtain ⟨a, pg, l, sp, sc, sd⟩ := s
  rcases sp with _ | ⟨⟨k, v⟩, rest⟩
  · cases sc <;>
      simp [fetchDataUrl, buildApiUrl, SpecQuery.render, specQuery,
        offsetOf, urlSearchParamsToString, String.append_assoc]
  · rcases rest with _ | ⟨q, rest⟩
    · cases sc <;>
        simp [fetchDataUrl, buildApiUrl, SpecQuery.render, specQuery,
          offsetOf, urlSearchParamsToString, intercalate_singleton,
          String.append_assoc]
    · simp at hsp

/-- C5 witness: the query of a reachable state carrying a name filter and
a name sort renders exactly from its abstract query. -/
theorem fetchData_query_spec_witness :
    fetchDataUrl (handleSortClick "name"
        (handleInput 1 "fr" (CountryTable.init "u")).1).1 =
      SpecQuery.render "u"
        (specQuery (handleSortClick "name"
          (handleInput 1 "fr" (CountryTable.init "u")).1).1) :=
  (fetchData_query_spec _
    (Reachable.sort "name"
      (Reachable.input 1 "fr" (Reachable.init "u")))).2

/-- C8: `page ≥ 1` holds in the constructor's state and is preserved by
every operation; consequently no reachable state has `page < 1`. -/
theorem page_invariant :
    (∀ apiUrl, 1 ≤ (CountryTable.init apiUrl).currentPage) ∧
    (∀ v s, 1 ≤ s.currentPage →
      1 ≤ (handleSelectChange v s).1.currentPage) ∧
    (∀ i t s, 1 ≤ s.currentPage → 1 ≤ (handleInput i t s).1.currentPage) ∧
    (∀ s, 1 ≤ s.currentPage → 1 ≤ (handlePrevButtonClick s).1.currentPage) ∧
    (∀ c s, 1 ≤ s.currentPage →
      1 ≤ (handleNextButtonClick c s).1.currentPage) ∧
    (∀ c s, 1 ≤ s.currentPage → 1 ≤ (handleSortClick c s).1.currentPage) ∧
    (∀ s, Reachable s → 1 ≤ s.currentPage) := by
  refine ⟨fun _ => le_refl 1, fun _ _ _ => le_refl 1,
    fun _ _ _ _ => le_refl 1, ?_, ?_, fun _ s h => h,
    fun s h => (reachable_invariant h).1⟩
  · intro s h
    unfold handlePrevButtonClick
    rcases Nat.lt_or_ge 1 s.currentPage with hp | hp
    · rw [if_pos hp]
      exact Nat.le_sub_one_of_lt hp
    · rw [if_neg (by omega)]
      exact h
  · intro c s h
    rw [handleNextButtonClick_eq]
    rcases Nat.lt_or_ge s.currentPage
        (ceilDiv (getNumberOfEntries c) s.limit.toNat) with hp | hp
    · rw [if_pos hp]
      exact Nat.le_succ_of_le h
    · rw [if_neg (by omega)]
      exact h

/-- C8 witness: the invariant evaluated on concrete states — a
previous-click on the fresh state (a reachable state) and a next-click
preservation instance. -/
theorem page_invariant_witness :
    1 ≤ (handlePrevButtonClick (CountryTable.init "u")).1.currentPage ∧
    1 ≤ (handleNextButtonClick (some 12)
          (CountryTable.init "u")).1.currentPage :=
  ⟨page_invariant.2.2.2.2.2.2 _ (Reachable.prev (Reachable.init "u")),
   page_invariant.2.2.2.2.1 (some 12) (CountryTable.init "u") (by decide)⟩

end MD009
